import Mathlib

/-!
Verification of the wasmBild image-editing core (main.go) against its
specification.

The Go program delegates all pixel work (decode, resize, brightness,
contrast, JPEG encode) to the external bild / Go stdlib image libraries.
We embed the core state management faithfully and treat the external
library as a black box: a structure of abstract functions.  Go `float64`
values are modelled as ℚ — the core never performs arithmetic on effect
values (it only stores and forwards them), and the one arithmetic use
(the resize ratio) is exact rational arithmetic on the inputs the claims
exercise.  Go nil-able `image.Image` interface fields are modelled as
`Option Image`.  A Go runtime panic (calling a nil function value) is
modelled as `none` in an `Option` result.
-/

namespace WasmBild

/-- Resampling filters of the external transform library
(`bild/transform`); the code only ever passes `transform.Linear`. -/
inductive Filter
  | nearestNeighbor
  | box
  | linear
  | gaussian
  | lanczos
deriving DecidableEq, Repr

/-- The external image library (bild + Go stdlib image/base64), treated
as a black box over an abstract pixel-buffer type `Image`:
`brightness`/`contrast` are `adjust.Brightness`/`adjust.Contrast`,
`resize` is `transform.Resize`, `decode` is the composition of the
base64 decoder and `image.Decode` on the already-stripped payload
(returning the decoded image or an error), and `width`/`height` are
`Bounds().Dx()`/`Bounds().Dy()` of a decoded image. -/
structure Bild (Image : Type) where
  brightness : Image → ℚ → Image
  contrast : Image → ℚ → Image
  resize : Image → Int → Int → Filter → Image
  decode : String → Except String Image
  width : Image → Int
  height : Image → Int

/-- Constant `jpegPrefix` from main.go. -/
def jpegPref : String := "data:image/jpeg;base64,"

/-- Constant `pngPrefix` from main.go. -/
def pngPref : String := "data:image/png;base64,"

/-- The `Effect` struct: `Id, Name string; Value float64; Min, Max int`. -/
structure Effect where
  Id : String
  Name : String
  Value : ℚ
  Min : Int
  Max : Int
deriving DecidableEq, Repr

/-- Function `Effect.GetEffectFn`: a switch on `eff.Name`; the registered kinds
return a closure over the library transform and the current value, the
default branch logs and returns a nil function, modelled as `none`. -/
def Effect.GetEffectFn {Image : Type} (lib : Bild Image) (eff : Effect) :
    Option (Image → Image) :=
  if eff.Name = "brightness" then
    some (fun img => lib.brightness img eff.Value)
  else if eff.Name = "contrast" then
    some (fun img => lib.contrast img eff.Value)
  else
    none

/-- The `App` struct.  The `buf bytes.Buffer` field (a scratch buffer for
the JPEG encoder used only by the UI layer) is not modelled; `sourceImg`
and `resizedImg` are nil-able Go interfaces, hence `Option`. -/
structure App (Image : Type) where
  cnt : Int
  dstWidth : Int
  sourceImg : Option Image
  resizedImg : Option Image
  effects : List Effect
deriving DecidableEq, Repr

/-- Constructor `NewApp`: empty effects, cnt 0, dstWidth 200; the image fields start
as Go zero values (nil). -/
def NewApp {Image : Type} : App Image :=
  { cnt := 0, dstWidth := 200, sourceImg := none, resizedImg := none,
    effects := [] }

/-- Method `App.Append`: unconditionally appends `eff` to `app.effects`
(the Go code only logs the new length; there is no validation). -/
def App.Append {Image : Type} (app : App Image) (eff : Effect) : App Image :=
  { app with effects := app.effects ++ [eff] }

/-- The loop body of `App.Update`: scan for the first effect whose `Id`
matches, overwrite its `Value` with `value` (no clamping appears in the
source), `break`; no match leaves the list unchanged. -/
def updateEffects (Id : String) (value : ℚ) : List Effect → List Effect
  | [] => []
  | e :: es =>
    if e.Id = Id then { e with Value := value } :: es
    else e :: updateEffects Id value es

/-- Method `App.Update`: wraps the scan above. -/
def App.Update {Image : Type} (app : App Image) (Id : String) (value : ℚ) :
    App Image :=
  { app with effects := updateEffects Id value app.effects }

/-- Which of the three return paths `NewSourceImgFromString` takes:
the `default:` branch of the prefix switch (logs "unrecognized image
format" and returns), the `err != nil` branch after `image.Decode`
(logs the error and returns), or the fall-through success path. -/
inductive LoadOutcome
  | unsupportedFormat
  | decodeFailed
  | ok
deriving DecidableEq, Repr

/-- The prefix switch at the top of `NewSourceImgFromString`:
`strings.HasPrefix`/`strings.TrimPrefix` against the JPEG data-URL
marker first, then the PNG one; `none` models the `default:` branch.
The checks run over the character lists underlying the strings (for
these ASCII markers Go's byte-wise prefix test and the character-wise
one coincide; the list operations also reduce in the kernel, which
`String.isPrefixOf` does not). -/
def stripDataUrl (simg : String) : Option String :=
  if jpegPref.data.isPrefixOf simg.data then
    some (String.mk (simg.data.drop jpegPref.data.length))
  else if pngPref.data.isPrefixOf simg.data then
    some (String.mk (simg.data.drop pngPref.data.length))
  else none

/-! ### IEEE-754 binary64 model for the height computation

Go computes the preview height as
`ratio := float64(srcHeight)/float64(srcWidth)` followed by
`dstHeight := int(math.Ceil(ratio * float64(dstWidth)))`: two float64
operations, each correctly rounded to 53 significant bits
(round to nearest, ties to even), then an exact ceiling.  The rounding
matters: it makes the result differ from the exact
`ceil(dstWidth * h / w)` at real inputs (a 5-wide, 11-high source gives
441, the exact value 440).  The functions below implement
correct binary64 rounding of a positive rational with plain integer
arithmetic, so everything reduces in the kernel; overflow and
subnormals are not modelled — every ratio of image dimensions is far
inside the normal range. -/

/-- Round the fraction a / b (with b > 0) to the nearest integer, ties
to even — the IEEE-754 default rounding. -/
def roundNE (a b : ℤ) : ℤ :=
  let q := a.fdiv b
  let r := a - b * q
  if 2 * r < b then q
  else if 2 * r > b then q + 1
  else if q % 2 = 0 then q else q + 1

/-- Fuel-driven floor of log2 (the core `Nat.log2` is defined by
well-founded recursion, which the kernel does not reduce). -/
def natLog2Aux : ℕ → ℕ → ℕ
  | 0, _ => 0
  | fuel + 1, n => if n ≤ 1 then 0 else natLog2Aux fuel (n / 2) + 1

/-- Floor of log2 of a positive natural. -/
def natLog2 (n : ℕ) : ℕ := natLog2Aux n n

/-- Exact test `n / d ≥ 2 ^ c` for positive n, d. -/
def ratGePow2 (n d : ℕ) (c : ℤ) : Bool :=
  if 0 ≤ c then d * 2 ^ c.toNat ≤ n else d ≤ n * 2 ^ (-c).toNat

/-- The exact binary exponent `⌊log2 (n / d)⌋` of a positive rational:
the log2-difference estimate is off by at most one, fixed by an exact
comparison. -/
def ratLog2 (n d : ℕ) : ℤ :=
  let c : ℤ := (natLog2 n : ℤ) - (natLog2 d : ℤ)
  if ratGePow2 n d c then c else c - 1

/-- The significand candidate: (n / d) / 2^e rounded to an integer,
ties to even. -/
def mant (n d : ℕ) (e : ℤ) : ℤ :=
  if 0 ≤ e then roundNE n (d * 2 ^ e.toNat)
  else roundNE (n * 2 ^ (-e).toNat) d

/-- The exact rational value m * 2^e. -/
def scale (m e : ℤ) : ℚ :=
  if 0 ≤ e then Rat.divInt (m * 2 ^ e.toNat) 1
  else Rat.divInt m (2 ^ (-e).toNat)

/-- Correctly rounded binary64 value of the positive rational n / d
(n, d > 0), as the exact rational it denotes: 53-bit significand
m ∈ [2^52, 2^53) with round to nearest, ties to even, carrying into
the exponent when the rounding reaches 2^53. -/
def f64pos (n d : ℕ) : ℚ :=
  let e : ℤ := ratLog2 n d - 52
  let m := mant n d e
  if m = 2 ^ 53 then scale (2 ^ 52) (e + 1) else scale m e

/-- Correctly rounded binary64 value of a rational (normal range):
zero maps to zero and negative values round symmetrically. -/
def f64round (q : ℚ) : ℚ :=
  if q.num = 0 then 0
  else if 0 < q.num then f64pos q.num.toNat q.den
  else
    let p := f64pos (-q.num).toNat q.den
    Rat.divInt (-p.num) p.den

/-- The float64 quotient `float64(a) / float64(b)`: image dimensions
are far below 2^53, so the int-to-float conversions are exact and the
division rounds once.  For b = 0 Go yields ±Inf/NaN and the later int
conversion is implementation-specific; the model returns 0 there and
no theorem relies on the value in that case. -/
def f64div (a b : ℤ) : ℚ := f64round (Rat.divInt a b)

/-- The float64 product `q * float64(k)` for a binary64 value q and a
small integer k (both exactly representable): the exact product,
rounded once. -/
def f64mulInt (q : ℚ) (k : ℤ) : ℚ := f64round (Rat.divInt (q.num * k) q.den)

/-- Method `App.NewSourceImgFromString`.  Note the Go multi-assignment
`app.sourceImg, _, err = image.Decode(reader)` writes `app.sourceImg`
before `err` is checked, so on a decode failure `sourceImg` is
overwritten with the nil image the decoder returned while `resizedImg`
keeps its old value.  The height is
`int(math.Ceil(ratio * float64(dstWidth)))` with
`ratio := float64(srcHeight)/float64(srcWidth)`: a rounded float64
division, a rounded float64 multiplication (modelled exactly by
`f64div`/`f64mulInt` above), and `math.Ceil`, which is exact on
float64 and whose integer-valued result converts to int exactly at
these magnitudes, so it is the rational ceiling of the rounded
product. -/
def App.NewSourceImgFromString {Image : Type} (lib : Bild Image)
    (app : App Image) (simg : String) : App Image × LoadOutcome :=
  match stripDataUrl simg with
  | none => (app, LoadOutcome.unsupportedFormat)
  | some stripped =>
    match lib.decode stripped with
    | Except.error _ =>
        ({ app with sourceImg := none }, LoadOutcome.decodeFailed)
    | Except.ok img =>
        let srcWidth := lib.width img
        let srcHeight := lib.height img
        let dstWidth := app.dstWidth
        let dstHeight : Int := (f64mulInt (f64div srcHeight srcWidth) dstWidth).ceil
        ({ app with
            sourceImg := some img,
            resizedImg := some (lib.resize img dstWidth dstHeight Filter.linear) },
         LoadOutcome.ok)

/-- The loop of `App.PreviewImg`:
`for _, eff := range app.effects { img = eff.GetEffectFn()(img) }`.
Calling the nil function returned by `GetEffectFn` for an unregistered
name is a Go runtime panic, modelled as `none`. -/
def applyEffects {Image : Type} (lib : Bild Image) :
    List Effect → Image → Option Image
  | [], img => some img
  | e :: es, img =>
    match e.GetEffectFn lib with
    | none => none
    | some f => applyEffects lib es (f img)

/-- Method `App.PreviewImg`: starts from `app.resizedImg` and folds the effect
list over it.  When `resizedImg` is nil, Go returns nil for an empty
pipeline and panics inside the first library transform otherwise; both
are collapsed to `none` here — no theorem below exercises that branch,
each assumes `resizedImg = some base`. -/
def App.PreviewImg {Image : Type} (lib : Bild Image) (app : App Image) :
    Option Image :=
  match app.resizedImg with
  | none => none
  | some base => applyEffects lib app.effects base

/-- One click of `AddEffectCallback` with effect kind `name` selected.
The closure increments `jsa.cnt` (the embedded `App`'s counter) but
builds the id from `app.cnt`, where `app` is the `App` value passed to
`NewJsApp` by value — a copy whose counter is never incremented, frozen
at its value at construction time.  `appCnt` is that captured value. -/
def AddEffectClick {Image : Type} (appCnt : Int) (jsa : App Image)
    (name : String) : App Image :=
  let jsa' := { jsa with cnt := jsa.cnt + 1 }
  let eff : Effect :=
    { Id := name ++ toString appCnt, Name := name, Value := 0,
      Min := 2, Max := 2 }
  jsa'.Append eff

/-! ## Concrete test world for witnesses and counterexamples

`TImg` is a free term algebra over the external library's operations:
each library call is recorded syntactically, so the witnesses can
observe exactly which transforms were applied, in which order and with
which arguments. -/

/-- Free images: a base image plus formal applications of the library
operations. -/
inductive TImg
  | base
  | bright (i : TImg) (v : ℚ)
  | contr (i : TImg) (v : ℚ)
  | rsz (i : TImg) (w h : Int) (f : Filter)
deriving DecidableEq, Repr

/-- A concrete instance of the external library over `TImg`: transforms
build formal terms; `decode` accepts exactly the payload "IMG" and
yields the base image, reported as 400×300. -/
def testLib : Bild TImg :=
  { brightness := TImg.bright
    contrast := TImg.contr
    resize := TImg.rsz
    decode := fun s => if s = "IMG" then Except.ok TImg.base
                       else Except.error "invalid image"
    width := fun _ => 400
    height := fun _ => 300 }

/-- A variant of `testLib` whose decoded image reports width 0 and
height 10 (degenerate geometry). -/
def zeroWidthLib : Bild TImg :=
  { testLib with width := fun _ => 0, height := fun _ => 10 }

/-- A variant of `testLib` whose decoded image reports width 5 and
height 11 — an input where Go's rounded float64 height computation
(441) differs from the exact `ceil(200 * h / w)` (440). -/
def lib5x11 : Bild TImg :=
  { testLib with width := fun _ => 5, height := fun _ => 11 }

/-! ## Theorems -/

/-- Claim C5: applying an empty pipeline to a base image returns it
unchanged — `PreviewImg` starts from `resizedImg` and the loop body
never runs. -/
theorem C5_empty_pipeline_identity {Image : Type} (lib : Bild Image)
    (app : App Image) (base : Image)
    (hempty : app.effects = []) (hbase : app.resizedImg = some base) :
    app.PreviewImg lib = some base := by
  unfold App.PreviewImg
  rw [hbase, hempty]
  rfl

/-- Witness for C5 at a concrete loaded app with an empty pipeline. -/
theorem C5_witness :
    App.PreviewImg testLib { (NewApp : App TImg) with resizedImg := some TImg.base }
      = some TImg.base :=
  C5_empty_pipeline_identity testLib _ TImg.base rfl rfl

/-- Claim C7: `Update` with an id not present in the pipeline is a no-op: the
scan finds no match, nothing is written, no error path exists. -/
theorem C7_update_missing_id_noop {Image : Type} (app : App Image)
    (Id : String) (v : ℚ) (h : ∀ e ∈ app.effects, e.Id ≠ Id) :
    app.Update Id v = app := by
  have key : ∀ es, (∀ e ∈ es, e.Id ≠ Id) → updateEffects Id v es = es := by
    intro es
    induction es with
    | nil => intro _; rfl
    | cons e es ih =>
      intro he
      rw [updateEffects, if_neg (he e (by simp)), ih (fun x hx => he x (by simp [hx]))]
  cases app with
  | mk cnt dstWidth si ri effs => simp [App.Update, key effs h]

/-- Witness for C7: updating a missing id on a one-effect pipeline
changes nothing. -/
theorem C7_witness :
    App.Update
        { (NewApp : App TImg) with
          effects := [⟨"brightness1", "brightness", 0, 2, 2⟩] } "contrast9" 5
      = { (NewApp : App TImg) with
          effects := [⟨"brightness1", "brightness", 0, 2, 2⟩] } :=
  C7_update_missing_id_noop _ _ _ (by decide)

/-- Claim C2 counterexample: appending the unregistered kind "sepia" does not
fail (no error path exists in `Append`) and the pipeline length grows
from 0 to 1, contradicting "fails with UnknownKindError and the
pipeline's length is unchanged"; the kind is indeed unregistered:
`GetEffectFn` has no case for it. -/
theorem C2_counterexample :
    ((NewApp : App TImg).Append ⟨"sepia1", "sepia", 0, 2, 2⟩).effects.length = 1 ∧
    (NewApp : App TImg).effects.length = 0 ∧
    Effect.GetEffectFn testLib ⟨"sepia1", "sepia", 0, 2, 2⟩ = none :=
  ⟨rfl, rfl, rfl⟩

/-- Claim C2 amended: `Append` performs no kind validation — every effect,
registered or not, is appended at the end and the length increases by
one; an unregistered kind is only detected later, at apply time, where
`GetEffectFn` returns a nil function. -/
theorem C2_amended_append_any_kind {Image : Type} (app : App Image)
    (eff : Effect) :
    (app.Append eff).effects = app.effects ++ [eff] ∧
    (app.Append eff).effects.length = app.effects.length + 1 := by
  refine ⟨rfl, ?_⟩
  simp [App.Append]

/-- Claim C3 counterexample: the app's own `AddEffectCallback` creates effects
with `Min = 2, Max = 2`; updating such an effect to 100 stores 100
verbatim, which lies outside every reading of the kind's range (and is
not equal to a bound), contradicting "clamps v to the owning kind's
range before storing it". -/
theorem C3_counterexample :
    ((App.Update
        { (NewApp : App TImg) with
          effects := [⟨"brightness0", "brightness", 0, 2, 2⟩] }
        "brightness0" 100).effects.map Effect.Value) = [100] ∧
    ¬ ((100 : ℚ) ≤ 2) := by
  refine ⟨rfl, by norm_num⟩

/-- Claim C3 amended: `Update` stores `newValue` verbatim — the first effect
whose id matches gets exactly the given value, with no clamping; the
`Min`/`Max` fields are never read by `Update`. -/
theorem C3_amended_update_stores_verbatim {Image : Type} (app : App Image)
    (pre rest : List Effect) (e : Effect) (Id : String) (v : ℚ)
    (heffs : app.effects = pre ++ e :: rest)
    (hpre : ∀ p ∈ pre, p.Id ≠ Id) (he : e.Id = Id) :
    (app.Update Id v).effects = pre ++ { e with Value := v } :: rest := by
  have key : ∀ pr, (∀ p ∈ pr, p.Id ≠ Id) →
      updateEffects Id v (pr ++ e :: rest) = pr ++ { e with Value := v } :: rest := by
    intro pr
    induction pr with
    | nil => intro _; simp [updateEffects, he]
    | cons p ps ih =>
      intro hp
      have hpId : ¬ p.Id = Id := hp p (by simp)
      have hrec := ih (fun x hx => hp x (by simp [hx]))
      simp [updateEffects, hpId, hrec]
  simp [App.Update, heffs, key pre hpre]

/-- Witness for C3's amended statement: the out-of-range value 100 is
stored verbatim. -/
theorem C3_witness :
    (App.Update
        { (NewApp : App TImg) with
          effects := [⟨"brightness0", "brightness", 0, 2, 2⟩] }
        "brightness0" 100).effects
      = [⟨"brightness0", "brightness", 100, 2, 2⟩] :=
  C3_amended_update_stores_verbatim _ [] [] ⟨"brightness0", "brightness", 0, 2, 2⟩
    "brightness0" 100 rfl (by simp) rfl

/-- Claim C1 counterexample: on a decode failure (`jpegPref ++ "BAD"` strips
to a payload the decoder rejects) the Go multi-assignment has already
overwritten `sourceImg` with the decoder's nil result while
`resizedImg` keeps the previous preview — a partial state in which one
component of the ImageSource is replaced and the other is not. -/
theorem C1_counterexample :
    ((App.NewSourceImgFromString testLib
        { (NewApp : App TImg) with
          sourceImg := some TImg.base
          resizedImg := some (TImg.rsz TImg.base 200 150 Filter.linear) }
        (jpegPref ++ "BAD")).1.sourceImg = none) ∧
    ((App.NewSourceImgFromString testLib
        { (NewApp : App TImg) with
          sourceImg := some TImg.base
          resizedImg := some (TImg.rsz TImg.base 200 150 Filter.linear) }
        (jpegPref ++ "BAD")).1.sourceImg ≠ some TImg.base) ∧
    ((App.NewSourceImgFromString testLib
        { (NewApp : App TImg) with
          sourceImg := some TImg.base
          resizedImg := some (TImg.rsz TImg.base 200 150 Filter.linear) }
        (jpegPref ++ "BAD")).1.resizedImg
      = some (TImg.rsz TImg.base 200 150 Filter.linear)) := by
  refine ⟨by decide, by decide, by decide⟩

/-- Claim C1 amended: the unrecognized-prefix path leaves the whole state
untouched, and the success path replaces both components; but the
decode-failure path is not atomic — it overwrites `sourceImg` with the
nil decode result while leaving `resizedImg` unchanged. -/
theorem C1_amended_load_paths {Image : Type} (lib : Bild Image)
    (app : App Image) (s : String) :
    (stripDataUrl s = none →
      app.NewSourceImgFromString lib s = (app, LoadOutcome.unsupportedFormat)) ∧
    (∀ s' err, stripDataUrl s = some s' → lib.decode s' = Except.error err →
      app.NewSourceImgFromString lib s
        = ({ app with sourceImg := none }, LoadOutcome.decodeFailed)) ∧
    (∀ s' img, stripDataUrl s = some s' → lib.decode s' = Except.ok img →
      (app.NewSourceImgFromString lib s).1.sourceImg = some img ∧
      (app.NewSourceImgFromString lib s).1.resizedImg
        = some (lib.resize img app.dstWidth
            (f64mulInt (f64div (lib.height img) (lib.width img)) app.dstWidth).ceil
            Filter.linear) ∧
      (app.NewSourceImgFromString lib s).2 = LoadOutcome.ok) := by
  refine ⟨?_, ?_, ?_⟩
  · intro hnone
    simp [App.NewSourceImgFromString, hnone]
  · intro s' err hsome hdec
    simp [App.NewSourceImgFromString, hsome, hdec]
  · intro s' img hsome hdec
    simp [App.NewSourceImgFromString, hsome, hdec]

/-- Witness for C1's amended statement: the decode-failure path at a
concrete app holding a previous ImageSource. -/
theorem C1_witness :
    App.NewSourceImgFromString testLib
        { (NewApp : App TImg) with
          sourceImg := some TImg.base
          resizedImg := some (TImg.rsz TImg.base 200 150 Filter.linear) }
        (jpegPref ++ "BAD")
      = ({ (NewApp : App TImg) with
           sourceImg := none
           resizedImg := some (TImg.rsz TImg.base 200 150 Filter.linear) },
         LoadOutcome.decodeFailed) :=
  (C1_amended_load_paths testLib
      { (NewApp : App TImg) with
        sourceImg := some TImg.base
        resizedImg := some (TImg.rsz TImg.base 200 150 Filter.linear) }
      (jpegPref ++ "BAD")).2.1 "BAD" "invalid image" (by decide) rfl

/-- Claim C4: `PreviewImg` folds over the pipeline in insertion order, left
to right — with Contrast then Brightness appended, the output is
`brightness(contrast(base, cv), bv)`; and in general each appended
effect post-composes onto the image produced by the prefix of the
pipeline. -/
theorem C4_apply_fold_order {Image : Type} (lib : Bild Image)
    (app : App Image) (base : Image) (cv bv : ℚ) (i1 i2 : String)
    (m1 M1 m2 M2 : Int)
    (hbase : app.resizedImg = some base)
    (heffs : app.effects
      = [⟨i1, "contrast", cv, m1, M1⟩, ⟨i2, "brightness", bv, m2, M2⟩]) :
    app.PreviewImg lib = some (lib.brightness (lib.contrast base cv) bv) ∧
    ∀ (es : List Effect) (e : Effect) (img : Image),
      applyEffects lib (es ++ [e]) img
        = (applyEffects lib es img).bind
            (fun i => (e.GetEffectFn lib).map (fun f => f i)) := by
  constructor
  · unfold App.PreviewImg
    rw [hbase, heffs]
    simp [applyEffects, Effect.GetEffectFn]
  · intro es e img
    induction es generalizing img with
    | nil => cases h : e.GetEffectFn lib <;> simp [applyEffects, h]
    | cons x xs ih =>
      cases h : x.GetEffectFn lib <;> simp [applyEffects, h, ih]

/-- Witness for C4 at a concrete pipeline Contrast(1) then
Brightness(1/2) over the free image algebra: contrast is applied
first. -/
theorem C4_witness :
    App.PreviewImg testLib
        { (NewApp : App TImg) with
          resizedImg := some TImg.base
          effects := [⟨"contrast1", "contrast", 1, 2, 2⟩,
                      ⟨"brightness2", "brightness", 1/2, 2, 2⟩] }
      = some (TImg.bright (TImg.contr TImg.base 1) (1/2)) :=
  (C4_apply_fold_order testLib _ TImg.base 1 (1/2) "contrast1" "brightness2"
    2 2 2 2 rfl rfl).1

/-- Claim C6 counterexample: the height is not the exact
`ceil(200 * h / w)` — for a decoded 5-wide, 11-high source the program
computes `int(math.Ceil(float64(11)/float64(5) * 200))`, whose two
rounded float64 operations give 440.00000000000006 and hence height
441, while the claim's formula gives `ceil(440) = 440`. -/
theorem C6_counterexample :
    ((NewApp : App TImg).NewSourceImgFromString lib5x11
        (jpegPref ++ "IMG")).1.resizedImg
      = some (TImg.rsz TImg.base 200 441 Filter.linear) ∧
    ((200 * (11 : ℚ)) / (5 : ℚ)).ceil = 440 ∧
    (441 : ℤ) ≠ 440 := by
  refine ⟨by decide, ?_, by decide⟩
  have h : ((200 * (11 : ℚ)) / (5 : ℚ)) = 440 := by norm_num
  rw [h]
  decide

/-- Claim C6 amended: on a successful load the preview is
`resize(img, 200, H, Linear)` where H is the ceiling of the twice-
rounded float64 product `fl64(fl64(h/w) * 200)` — which can exceed the
exact `ceil(200*h/w)`, as at a 5x11 source where it is 441 rather than
440; the claim's own 400x300 example is exact in float64 and does give
height 150. -/
theorem C6_resize_float_height {Image : Type} (lib : Bild Image)
    (app : App Image) (s s' : String) (img : Image) (w h : Int)
    (hdst : app.dstWidth = 200)
    (hstrip : stripDataUrl s = some s')
    (hdec : lib.decode s' = Except.ok img)
    (hw : lib.width img = w) (hh : lib.height img = h) (hwpos : 0 < w) :
    (app.NewSourceImgFromString lib s).1.resizedImg
      = some (lib.resize img 200 (f64mulInt (f64div h w) 200).ceil Filter.linear) ∧
    (w = 400 → h = 300 → (f64mulInt (f64div h w) 200).ceil = 150) ∧
    (w = 5 → h = 11 → (f64mulInt (f64div h w) 200).ceil = 441) := by
  refine ⟨?_, ?_, ?_⟩
  · simp [App.NewSourceImgFromString, hstrip, hdec, hdst, hw, hh]
  · rintro rfl rfl
    decide
  · rintro rfl rfl
    decide

/-- Witness for C6's amended statement: the 400x300 test decoder yields
a 200-wide, 150-high preview request to the library. -/
theorem C6_witness :
    ((NewApp : App TImg).NewSourceImgFromString testLib
        (jpegPref ++ "IMG")).1.resizedImg
      = some (testLib.resize TImg.base 200
          (f64mulInt (f64div (300 : ℤ) (400 : ℤ)) 200).ceil Filter.linear) ∧
    ((400 : ℤ) = 400 → (300 : ℤ) = 300 →
      (f64mulInt (f64div (300 : ℤ) (400 : ℤ)) 200).ceil = 150) ∧
    ((400 : ℤ) = 5 → (300 : ℤ) = 11 →
      (f64mulInt (f64div (300 : ℤ) (400 : ℤ)) 200).ceil = 441) :=
  C6_resize_float_height testLib _ _ "IMG" TImg.base 400 300 rfl (by decide)
    rfl rfl rfl (by decide)

/-- Claim C9 counterexample: a decoder reporting width 0 does not make `load`
fail — there is no dimension check and no InvalidDimensionsError path
in the code; the success branch runs and the ImageSource is produced. -/
theorem C9_counterexample :
    ((NewApp : App TImg).NewSourceImgFromString zeroWidthLib
        (jpegPref ++ "IMG")).2 = LoadOutcome.ok ∧
    ((NewApp : App TImg).NewSourceImgFromString zeroWidthLib
        (jpegPref ++ "IMG")).1.sourceImg = some TImg.base ∧
    zeroWidthLib.width TImg.base = 0 ∧
    ((NewApp : App TImg).NewSourceImgFromString zeroWidthLib
        (jpegPref ++ "IMG")).1.resizedImg ≠ none := by
  refine ⟨by decide, by decide, rfl, by decide⟩

/-- Claim C9 amended: `load` performs no dimension validation — even when the
decoded image has width 0 it takes the success path, replaces
`sourceImg` and stores a resized preview (whose height Go computes from
an implementation-specific float-to-int conversion). -/
theorem C9_amended_no_dimension_check {Image : Type} (lib : Bild Image)
    (app : App Image) (s s' : String) (img : Image)
    (hstrip : stripDataUrl s = some s')
    (hdec : lib.decode s' = Except.ok img)
    (hw : lib.width img = 0) :
    (app.NewSourceImgFromString lib s).2 = LoadOutcome.ok ∧
    (app.NewSourceImgFromString lib s).1.sourceImg = some img ∧
    ∃ r, (app.NewSourceImgFromString lib s).1.resizedImg = some r := by
  simp [App.NewSourceImgFromString, hstrip, hdec]

/-- Witness for C9's amended statement at the zero-width decoder. -/
theorem C9_witness :
    ((NewApp : App TImg).NewSourceImgFromString zeroWidthLib
        (jpegPref ++ "IMG")).2 = LoadOutcome.ok ∧
    ((NewApp : App TImg).NewSourceImgFromString zeroWidthLib
        (jpegPref ++ "IMG")).1.sourceImg = some TImg.base ∧
    ∃ r, ((NewApp : App TImg).NewSourceImgFromString zeroWidthLib
        (jpegPref ++ "IMG")).1.resizedImg = some r :=
  C9_amended_no_dimension_check zeroWidthLib _ _ "IMG" TImg.base (by decide)
    rfl rfl

/-- Claim C8: the ids issued by `AddEffectCallback` are built from `app.cnt`,
the counter of the `App` value captured by `NewJsApp`'s parameter —
which is never incremented (only `jsa.cnt` is) — so two clicks with the
same kind selected issue the same id "brightness0" twice, the pipeline
holds duplicate ids, even though the session counter did advance to
2. -/
theorem C8_duplicate_id_bug :
    ((AddEffectClick 0 (AddEffectClick 0 (NewApp : App TImg) "brightness")
        "brightness").effects.map Effect.Id)
      = ["brightness0", "brightness0"] ∧
    ¬ ((AddEffectClick 0 (AddEffectClick 0 (NewApp : App TImg) "brightness")
        "brightness").effects.map Effect.Id).Nodup ∧
    (AddEffectClick 0 (AddEffectClick 0 (NewApp : App TImg) "brightness")
        "brightness").cnt = 2 := by
  refine ⟨by decide, by decide, by decide⟩

/-- A name is unregistered exactly when `GetEffectFn` returns the nil
function. -/
theorem GetEffectFn_eq_none_iff {Image : Type} (lib : Bild Image)
    (e : Effect) :
    e.GetEffectFn lib = none
      ↔ ¬ (e.Name = "brightness" ∨ e.Name = "contrast") := by
  unfold Effect.GetEffectFn
  by_cases hb : e.Name = "brightness"
  · simp [hb]
  · by_cases hc : e.Name = "contrast" <;> simp [hb, hc]

/-- The apply loop succeeds exactly when every effect name is
registered; any unregistered name makes it invoke a nil function. -/
theorem applyEffects_isSome_iff {Image : Type} (lib : Bild Image)
    (es : List Effect) (img : Image) :
    (applyEffects lib es img).isSome
      ↔ ∀ e ∈ es, e.Name = "brightness" ∨ e.Name = "contrast" := by
  induction es generalizing img with
  | nil => simp [applyEffects]
  | cons e es ih =>
    cases h : e.GetEffectFn lib with
    | none =>
      have hn := (GetEffectFn_eq_none_iff lib e).mp h
      simp [applyEffects, h, hn]
    | some f =>
      have hr : e.Name = "brightness" ∨ e.Name = "contrast" := by
        by_contra hcontra
        rw [(GetEffectFn_eq_none_iff lib e).mpr hcontra] at h
        exact Option.noConfusion h
      simp [applyEffects, h, ih, hr]

/-- Claim C10: `PreviewImg` has no guard against unregistered kinds — it
succeeds exactly when every instance's name is registered, and
`GetEffectFn` returns a nil function exactly for unregistered names, so
the nil-call branch is unreachable only under the precondition that
every name in the pipeline is registered. -/
theorem C10_apply_nil_guard {Image : Type} (lib : Bild Image)
    (app : App Image) (base : Image) (hbase : app.resizedImg = some base) :
    ((app.PreviewImg lib).isSome
      ↔ ∀ e ∈ app.effects, e.Name = "brightness" ∨ e.Name = "contrast") ∧
    ∀ e : Effect, e.GetEffectFn lib = none
      ↔ ¬ (e.Name = "brightness" ∨ e.Name = "contrast") := by
  constructor
  · unfold App.PreviewImg
    rw [hbase]
    exact applyEffects_isSome_iff lib app.effects base
  · exact fun e => GetEffectFn_eq_none_iff lib e

/-- Witness for C10 at a pipeline holding the unregistered kind
"sepia": the apply loop does not succeed. -/
theorem C10_witness :
    (App.PreviewImg testLib
        { (NewApp : App TImg) with
          resizedImg := some TImg.base
          effects := [⟨"sepia1", "sepia", 0, 2, 2⟩] }).isSome
      ↔ ∀ e ∈ [(⟨"sepia1", "sepia", 0, 2, 2⟩ : Effect)],
          e.Name = "brightness" ∨ e.Name = "contrast" :=
  (C10_apply_nil_guard testLib _ TImg.base rfl).1

end WasmBild
